import Mathlib

/-!
Verification development for the `stock_find` repository
(`discord_stock_bot.py`, `stock_scanner.py`).

The decision logic under verification is the per-instrument analyzer
`analyze_stock` (lines 86-169 of `discord_stock_bot.py`) together with the
two screening passes `scan_korean_stocks` (172-209) and
`scan_cryptocurrencies` (212-253).

Modelling conventions:
* Python floats are modelled by `ℚ`.  The data source (`fdr.DataReader`) and
  the indicator library (`ta.*`) are external collaborators; a fetched frame
  is an optional `Df` of OHLCV columns and the indicator library is a record
  of functions producing indicator series whose entries are `Option ℚ`
  (`none` models a pandas `NaN`).  Every float comparison in the source
  evaluates to `False` when an operand is `NaN`; the `Option`-comparison
  helpers below reproduce exactly that.
* Fallible calls return `Except String`; the source's `try/except` blocks
  become `match`es on the `Except` value.
* `round(x, 2)` is modelled by `round2` (floor of `x*100 + 1/2`, scaled
  back).  Python's float `round` differs only on exact half-way cases,
  which no claim exercises.
* `.iloc[-k]` indexing (`ilocQ`/`ilocO`) is total with an out-of-range
  default; the source only indexes frames that hold at least 30 rows and
  indicator series that the library contract (spec §2) makes the same
  length, where the two semantics agree.
-/

/-- One fetched OHLCV frame (the columns of the `fdr.DataReader` result that
`analyze_stock` reads).  All four columns have the frame's row count. -/
structure Df where
  high : List ℚ
  low : List ℚ
  close : List ℚ
  volume : List ℚ
deriving DecidableEq

/-- Models `len(df)`: the frame's row count. -/
def Df.len (df : Df) : Nat := df.close.length

/-- The external indicator library (`ta.*` at the configuration constants of
lines 45-54): each member maps input series to an indicator series whose
entries may be undefined (`none` = pandas `NaN`).  `emaShort`/`emaLong` are
`ta.trend.ema_indicator` at windows 5 and 20 (`calculate_ema`, lines 71-75). -/
structure IndicatorLib where
  rsi : List ℚ → List (Option ℚ)
  macd : List ℚ → List (Option ℚ)
  emaShort : List ℚ → List (Option ℚ)
  emaLong : List ℚ → List (Option ℚ)
  bollingerWband : List ℚ → List (Option ℚ)
  mfi : List ℚ → List ℚ → List ℚ → List ℚ → List (Option ℚ)

/-- Models `series.iloc[-k]` on a plain float column (out of range ⇒ junk `0`;
never reached behind the `len(df) < 30` guard). -/
def ilocQ (l : List ℚ) (k : Nat) : ℚ :=
  if k ≤ l.length then l.getD (l.length - k) 0 else 0

/-- Models `series.iloc[-k]` on an indicator series with possibly-`NaN` entries. -/
def ilocO (l : List (Option ℚ)) (k : Nat) : Option ℚ :=
  if k ≤ l.length then l.getD (l.length - k) none else none

/-- Comparison `a <= b` on a possibly-`NaN` left operand (Python: any comparison with
`NaN` is `False`). -/
def nleB (a : Option ℚ) (b : ℚ) : Bool :=
  match a with
  | some x => decide (x ≤ b)
  | none => false

/-- Comparison `a < b` on a possibly-`NaN` left operand. -/
def nltB (a : Option ℚ) (b : ℚ) : Bool :=
  match a with
  | some x => decide (x < b)
  | none => false

/-- Comparison `a > b` on a possibly-`NaN` left operand. -/
def ngtB (a : Option ℚ) (b : ℚ) : Bool :=
  match a with
  | some x => decide (b < x)
  | none => false

/-- Comparison `a >= b` on a possibly-`NaN` left operand. -/
def ngeB (a : Option ℚ) (b : ℚ) : Bool :=
  match a with
  | some x => decide (b ≤ x)
  | none => false

/-- Comparison `a <= b` where both operands may be `NaN`. -/
def oleB (a b : Option ℚ) : Bool :=
  match a, b with
  | some x, some y => decide (x ≤ y)
  | _, _ => false

/-- Comparison `a > b` where both operands may be `NaN`. -/
def ogtB (a b : Option ℚ) : Bool :=
  match a, b with
  | some x, some y => decide (y < x)
  | _, _ => false

/-- Threshold `RSI_OVERSOLD = 35` (line 46). -/
def RSI_OVERSOLD : ℚ := 35

/-- Threshold `VOLUME_SURGE_RATIO = 1.5` (line 45). -/
def volume_surge_ratio : ℚ := 3 / 2

/-- Rounding `round(x, 2)` of lines 159-162. -/
def round2 (q : ℚ) : ℚ := (⌊q * 100 + 1 / 2⌋ : ℚ) / 100

/-- The one-decimal rendering `f"{volume_ratio:.1f}"` of line 147. -/
def round1 (q : ℚ) : ℚ := (⌊q * 10 + 1 / 2⌋ : ℚ) / 10

/-- The signal labels `analyze_stock` can append (lines 124-154); the volume
label carries the rendered one-decimal ratio. -/
inductive Signal where
  | rsiOversoldExit
  | rsiOversoldState
  | macdGoldenCross
  | emaGoldenCross
  | emaUptrend
  | bbLowerBounce
  | volumeSurge (ratio1dp : ℚ)
  | mfiOversold
  | mfiOverbought
deriving DecidableEq

/-- The rule group (1..6, in source order) a signal label belongs to. -/
def groupOf : Signal → Nat
  | .rsiOversoldExit => 1
  | .rsiOversoldState => 1
  | .macdGoldenCross => 2
  | .emaGoldenCross => 3
  | .emaUptrend => 3
  | .bbLowerBounce => 4
  | .volumeSurge _ => 5
  | .mfiOversold => 6
  | .mfiOverbought => 6

/-- Rule group 1, lines 122-126: RSI oversold breakout / oversold state. -/
def rsiSignals (rsiPrev rsiLast : Option ℚ) : List Signal :=
  if nleB rsiPrev RSI_OVERSOLD && ngtB rsiLast RSI_OVERSOLD then
    [.rsiOversoldExit]
  else if nltB rsiLast RSI_OVERSOLD then [.rsiOversoldState]
  else []

/-- Rule group 2, lines 128-131: MACD golden cross (both bars `notna`). -/
def macdSignals (macdPrev macdLast : Option ℚ) : List Signal :=
  if macdPrev.isSome && macdLast.isSome then
    if nltB macdPrev 0 && ngtB macdLast 0 then [.macdGoldenCross] else []
  else []

/-- Rule group 3, lines 133-138: EMA golden cross / uptrend (only the two
current-bar values are `notna`-guarded, exactly as in the source). -/
def emaSignals (emaSPrev emaSLast emaLPrev emaLLast : Option ℚ) : List Signal :=
  if emaSLast.isSome && emaLLast.isSome then
    if oleB emaSPrev emaLPrev && ogtB emaSLast emaLLast then [.emaGoldenCross]
    else if ogtB emaSLast emaLLast then [.emaUptrend]
    else []
  else []

/-- Rule group 4, lines 140-143: Bollinger lower-band bounce (current bar
`notna`-guarded). -/
def bbSignals (bbPrev bbLast : Option ℚ) : List Signal :=
  if bbLast.isSome then
    if nltB bbPrev (1 / 5) && ngeB bbLast (1 / 5) then [.bbLowerBounce] else []
  else []

/-- Rule group 5, lines 145-147: volume surge (inclusive threshold). -/
def volumeSignals (ratio : ℚ) : List Signal :=
  if volume_surge_ratio ≤ ratio then [.volumeSurge (round1 ratio)] else []

/-- Rule group 6, lines 149-154: MFI oversold / overbought. -/
def mfiSignals (mfiLast : Option ℚ) : List Signal :=
  if mfiLast.isSome then
    if nltB mfiLast 30 then [.mfiOversold]
    else if ngtB mfiLast 70 then [.mfiOverbought]
    else []
  else []

/-- Derived value `avg_volume = df['Volume'].iloc[-30:-1].mean()` (line 112): the mean of
the trailing 29 volumes (Python slices clamp, as `Nat` subtraction does). -/
def avg_volume (df : Df) : ℚ :=
  let window := (df.volume.drop (df.volume.length - 30)).dropLast
  window.sum / window.length

/-- Derived value `volume_ratio = current_volume / avg_volume if avg_volume > 0 else 0`
(line 113). -/
def volume_ratio (df : Df) : ℚ :=
  if 0 < avg_volume df then ilocQ df.volume 1 / avg_volume df else 0

/-- Derived value `price_change = (current_close - prev_close) / prev_close * 100`
(lines 116-117). -/
def price_change (df : Df) : ℚ :=
  (ilocQ df.close 1 - ilocQ df.close 2) / ilocQ df.close 2 * 100

/-- The analysis-result dict of lines 156-165. -/
structure SignalRecord where
  code : String
  name : String
  current_price : ℚ
  price_change : ℚ
  rsi : Option ℚ
  volume_ratio : ℚ
  signals : List Signal
  signal_count : Nat
deriving DecidableEq

/-- The signal list built by lines 120-154, appended in source order. -/
def mkSignals (lib : IndicatorLib) (df : Df) : List Signal :=
  let rsi := lib.rsi df.close
  let macd_line := lib.macd df.close
  let ema_short := lib.emaShort df.close
  let ema_long := lib.emaLong df.close
  let bb := lib.bollingerWband df.close
  let mfi := lib.mfi df.high df.low df.close df.volume
  rsiSignals (ilocO rsi 2) (ilocO rsi 1)
    ++ macdSignals (ilocO macd_line 2) (ilocO macd_line 1)
    ++ emaSignals (ilocO ema_short 2) (ilocO ema_short 1)
        (ilocO ema_long 2) (ilocO ema_long 1)
    ++ bbSignals (ilocO bb 2) (ilocO bb 1)
    ++ volumeSignals (volume_ratio df)
    ++ mfiSignals (ilocO mfi 1)

/-- The dict returned at lines 156-165 for a frame that passed the
30-bar guard. -/
def mkRecord (lib : IndicatorLib) (df : Df) (code name : String) :
    SignalRecord :=
  let signals := mkSignals lib df
  { code := code
    name := name
    current_price := round2 (ilocQ df.close 1)
    price_change := round2 (price_change df)
    rsi := (ilocO (lib.rsi df.close) 1).map round2
    volume_ratio := round2 (volume_ratio df)
    signals := signals
    signal_count := signals.length }

/-- Analyzer `analyze_stock` (lines 86-169): fetch the instrument's history; a raised
fetch/computation fault (`Except.error`) is swallowed by the `except` block
of lines 167-169; a missing or sub-30-bar history returns `None`
(lines 99-100); otherwise the signal record of lines 156-165. -/
def analyze_stock (lib : IndicatorLib)
    (fetch : String → Except String (Option Df)) (code name : String) :
    Option SignalRecord :=
  match fetch code with
  | .error _ => none
  | .ok none => none
  | .ok (some df) =>
      if df.len < 30 then none else some (mkRecord lib df code name)

/-- One row of the `fdr.StockListing('KRX')` frame as read by lines 191-192
(`row.get('Code')`, `row.get('Name')`; a missing or empty code is falsy and
line 194-195 skips the row). -/
structure Row where
  code : String
  name : String
deriving DecidableEq

/-- The collection loop of lines 186-200: analyze each row in sequence,
skip falsy codes, keep results with a positive signal count. -/
def collectResults (analyzer : String → String → Option SignalRecord)
    (rows : List Row) : List SignalRecord :=
  rows.foldl
    (fun results row =>
      if row.code = "" then results
      else
        match analyzer row.code row.name with
        | none => results
        | some analysis =>
            if 0 < analysis.signal_count then results ++ [analysis]
            else results)
    []

/-- Sorting step `results.sort(key=lambda x: x['signal_count'], reverse=True)`
(line 203): Python's stable sort, descending by signal count. -/
def sortBySignalCount (l : List SignalRecord) : List SignalRecord :=
  l.mergeSort fun a b => decide (b.signal_count ≤ a.signal_count)

/-- Equity screener `scan_korean_stocks` (lines 172-209).  The universe listing
(`fdr.StockListing` plus the market-cap filter) is an external collaborator
passed in as an `Except`; a listing fault is caught by lines 207-209 and
yields `[]`. -/
def scan_korean_stocks (lib : IndicatorLib)
    (fetch : String → Except String (Option Df))
    (krx : Except String (List Row)) (limit : Nat) : List SignalRecord :=
  match krx with
  | .error _ => []
  | .ok rows =>
      (sortBySignalCount (collectResults (analyze_stock lib fetch) rows)).take
        limit

/-- The fixed symbol list of lines 218-222. -/
def cryptoSymbols : List String :=
  ["BTC", "ETH", "BNB", "XRP", "ADA", "SOL", "DOGE", "AVAX",
   "LINK", "MATIC", "ATOM", "LTC", "DASH", "SHIB", "UNI", "ARB",
   "APT", "OP", "FET", "JTO"]

/-- Crypto screener `scan_cryptocurrencies` (lines 212-253): iterate `symbols[:limit]`,
pre-fetch each `f"{symbol}KRW"` history (a per-symbol fault or short history
is skipped by the inner `except`/`continue` of lines 238-247), then run the
analyzer and keep positive-count results; finally `results[:limit]`.
Note: unlike the equity scan there is no sort. -/
def scan_cryptocurrencies (lib : IndicatorLib)
    (fetch : String → Except String (Option Df)) (limit : Nat) :
    List SignalRecord :=
  let results :=
    (cryptoSymbols.take limit).foldl
      (fun results symbol =>
        let code := symbol ++ "KRW"
        match fetch code with
        | .error _ => results
        | .ok none => results
        | .ok (some df) =>
            if df.len < 30 then results
            else
              match analyze_stock lib fetch code symbol with
              | none => results
              | some analysis =>
                  if 0 < analysis.signal_count then results ++ [analysis]
                  else results)
      []
  results.take limit

/-- The screening algorithm in the words of spec §4.2: invoke the analyzer
on each `(id, name)` universe entry in sequence, discard absent and
zero-signal results, sort by signal count descending (stably, ties in visit
order), take the first `limit`.  This is the comparison point for the
refinement claim, written from the spec, not from the source. -/
def screen_spec (analyzer : String → String → Option SignalRecord)
    (univ : List (String × String)) (limit : Nat) : List SignalRecord :=
  ((univ.filterMap fun e =>
      match analyzer e.1 e.2 with
      | none => none
      | some r => if 0 < r.signal_count then some r else none).mergeSort
    fun a b => decide (b.signal_count ≤ a.signal_count)).take limit

/-- The digital-asset universe as spec §4.2 describes it: the fixed symbol
list, fetched under the `f"{symbol}KRW"` code convention. -/
def cryptoUniverse : List (String × String) :=
  cryptoSymbols.map fun s => (s ++ "KRW", s)

/-- The per-row collection decision of lines 194-200 as one partial map:
skip falsy codes, drop absent analyses and zero counts. -/
def collectF (analyzer : String → String → Option SignalRecord)
    (row : Row) : Option SignalRecord :=
  if row.code = "" then none
  else
    match analyzer row.code row.name with
    | none => none
    | some a => if 0 < a.signal_count then some a else none

/-- The per-symbol body of the crypto loop (lines 226-247) as one partial
map: pre-fetch guard, then the analyzer with the same discard policy. -/
def cryptoF (lib : IndicatorLib)
    (fetch : String → Except String (Option Df)) (symbol : String) :
    Option SignalRecord :=
  let code := symbol ++ "KRW"
  match fetch code with
  | .error _ => none
  | .ok none => none
  | .ok (some df) =>
      if df.len < 30 then none
      else
        match analyze_stock lib fetch code symbol with
        | none => none
        | some analysis =>
            if 0 < analysis.signal_count then some analysis else none

/-- The unsorted variant of the spec §4.2 algorithm: collect survivors in
visit order and truncate, without ranking.  (This is what the crypto
screener actually computes, over a universe already truncated to
`limit`.) -/
def screen_spec_nosort (analyzer : String → String → Option SignalRecord)
    (univ : List (String × String)) (limit : Nat) : List SignalRecord :=
  (univ.filterMap fun e =>
      match analyzer e.1 e.2 with
      | none => none
      | some r => if 0 < r.signal_count then some r else none).take limit

/-! ### Concrete scenario data for witnesses and counterexamples -/

/-- An indicator series that is `NaN` everywhere (aligned to its input). -/
def qnone (c : List ℚ) : List (Option ℚ) := c.map fun _ => none

/-- A library whose indicators are all undefined: no rule can fire. -/
def lib0 : IndicatorLib :=
  { rsi := qnone, macd := qnone, emaShort := qnone, emaLong := qnone
    bollingerWband := qnone, mfi := fun _ _ _ v => qnone v }

/-- An RSI series that echoes the close series (defined everywhere). -/
def rsiEcho (c : List ℚ) : List (Option ℚ) := c.map some

/-- A library whose RSI echoes the close series (all other indicators
undefined), so concrete frames can steer the RSI rule. -/
def libId : IndicatorLib := { lib0 with rsi := rsiEcho }

/-- Closes of 29 bars at 40 then one at 30: RSI (= close under `libId`) ends below
the oversold threshold without an oversold exit. -/
def closesA : List ℚ := List.replicate 29 40 ++ [30]

/-- A flat volume column: ratio 1, no surge. -/
def flatVol : List ℚ := List.replicate 30 1

/-- A 30-bar frame whose analysis under `libId` yields exactly one signal
(RSI oversold state). -/
def dfBTC : Df := ⟨closesA, closesA, closesA, flatVol⟩

/-- A 30-bar frame whose analysis under `libId` yields two signals (RSI
oversold state and a 3x volume surge). -/
def dfETH : Df := ⟨closesA, closesA, closesA, List.replicate 29 1 ++ [3]⟩

/-- Fetch used against the crypto universe: history for BTC and ETH only. -/
def fetchCex : String → Except String (Option Df) := fun code =>
  if code = "BTCKRW" then .ok (some dfBTC)
  else if code = "ETHKRW" then .ok (some dfETH)
  else .ok none

/-- A neutral 30-bar frame: flat prices and volumes. -/
def dfFlat : Df :=
  ⟨List.replicate 30 100, List.replicate 30 100, List.replicate 30 100,
    flatVol⟩

/-- An RSI series that is `NaN` on every bar except the last, where it is
30 (< oversold threshold). -/
def rsiC5 (c : List ℚ) : List (Option ℚ) :=
  List.replicate (c.length - 1) none ++ [some 30]

/-- A library with `rsiC5` as RSI and every other indicator undefined. -/
def libC5 : IndicatorLib := { lib0 with rsi := rsiC5 }

/-- Fetch with a history only for instrument `"A"`. -/
def fetchC5 : String → Except String (Option Df) := fun code =>
  if code = "A" then .ok (some dfFlat) else .ok none

/-- A 30-bar frame whose last volume is exactly 1.5x the trailing 29-bar
average (boundary case of the surge threshold). -/
def dfBoundary : Df :=
  ⟨List.replicate 30 100, List.replicate 30 100, List.replicate 30 100,
    List.replicate 29 2 ++ [3]⟩

/-- Fetch with a history only for instrument `"B"`. -/
def fetchBoundary : String → Except String (Option Df) := fun code =>
  if code = "B" then .ok (some dfBoundary) else .ok none

/-- A 30-bar frame with an all-zero volume column (zero trailing average). -/
def dfZeroVol : Df :=
  ⟨List.replicate 30 100, List.replicate 30 100, List.replicate 30 100,
    List.replicate 30 0⟩

/-- A fetch returning the neutral frame for every instrument. -/
def fetchFlat : String → Except String (Option Df) := fun _ =>
  .ok (some dfFlat)

/-- A fetch for which every instrument is missing. -/
def fetchNone : String → Except String (Option Df) := fun _ => .ok none

/-- A fetch that raises for every instrument. -/
def fetchErr : String → Except String (Option Df) := fun _ =>
  .error "network down"

/-- An empty frame (fewer than 30 bars). -/
def dfShort : Df := ⟨[], [], [], []⟩

/-- A fetch returning only an empty frame. -/
def fetchShort : String → Except String (Option Df) := fun _ =>
  .ok (some dfShort)

/-- Two-row equity universe hitting the `fetchCex` histories. -/
def rowsCex : List Row := [⟨"ETHKRW", "ETH"⟩, ⟨"BTCKRW", "BTC"⟩]

/-- Returns `true` iff some volume-surge label is in the list. -/
def hasVolumeSurge (l : List Signal) : Bool :=
  l.any fun s =>
    match s with
    | .volumeSurge _ => true
    | _ => false

/-! ### Helper lemmas about the six rule groups -/

lemma mem_rsiSignals {s : Signal} {a b : Option ℚ} (h : s ∈ rsiSignals a b) :
    s = Signal.rsiOversoldExit ∨ s = Signal.rsiOversoldState := by
  unfold rsiSignals at h
  split at h <;> [skip; split at h] <;> simp_all

lemma mem_macdSignals {s : Signal} {a b : Option ℚ}
    (h : s ∈ macdSignals a b) : s = Signal.macdGoldenCross := by
  unfold macdSignals at h
  split at h <;> [split at h; skip] <;> simp_all

lemma mem_emaSignals {s : Signal} {a b c d : Option ℚ}
    (h : s ∈ emaSignals a b c d) :
    s = Signal.emaGoldenCross ∨ s = Signal.emaUptrend := by
  unfold emaSignals at h
  split at h <;> [(split at h <;> [skip; split at h]); skip] <;> simp_all

lemma mem_bbSignals {s : Signal} {a b : Option ℚ} (h : s ∈ bbSignals a b) :
    s = Signal.bbLowerBounce := by
  unfold bbSignals at h
  split at h <;> [split at h; skip] <;> simp_all

lemma mem_volumeSignals {s : Signal} {v : ℚ} (h : s ∈ volumeSignals v) :
    s = Signal.volumeSurge (round1 v) := by
  unfold volumeSignals at h
  split at h <;> simp_all

lemma mem_mfiSignals {s : Signal} {a : Option ℚ} (h : s ∈ mfiSignals a) :
    s = Signal.mfiOversold ∨ s = Signal.mfiOverbought := by
  unfold mfiSignals at h
  split at h <;> [(split at h <;> [skip; split at h]); skip] <;> simp_all

lemma groupOf_mem_rsiSignals {s : Signal} {a b : Option ℚ}
    (h : s ∈ rsiSignals a b) : groupOf s = 1 := by
  rcases mem_rsiSignals h with rfl | rfl <;> rfl

lemma groupOf_mem_macdSignals {s : Signal} {a b : Option ℚ}
    (h : s ∈ macdSignals a b) : groupOf s = 2 := by
  rcases mem_macdSignals h with rfl; rfl

lemma groupOf_mem_emaSignals {s : Signal} {a b c d : Option ℚ}
    (h : s ∈ emaSignals a b c d) : groupOf s = 3 := by
  rcases mem_emaSignals h with rfl | rfl <;> rfl

lemma groupOf_mem_bbSignals {s : Signal} {a b : Option ℚ}
    (h : s ∈ bbSignals a b) : groupOf s = 4 := by
  rcases mem_bbSignals h with rfl; rfl

lemma groupOf_mem_volumeSignals {s : Signal} {v : ℚ}
    (h : s ∈ volumeSignals v) : groupOf s = 5 := by
  rcases mem_volumeSignals h with rfl; rfl

lemma groupOf_mem_mfiSignals {s : Signal} {a : Option ℚ}
    (h : s ∈ mfiSignals a) : groupOf s = 6 := by
  rcases mem_mfiSignals h with rfl | rfl <;> rfl

lemma length_rsiSignals (a b : Option ℚ) : (rsiSignals a b).length ≤ 1 := by
  unfold rsiSignals; split <;> [skip; split] <;> simp

lemma length_macdSignals (a b : Option ℚ) :
    (macdSignals a b).length ≤ 1 := by
  unfold macdSignals; split <;> [split; skip] <;> simp

lemma length_emaSignals (a b c d : Option ℚ) :
    (emaSignals a b c d).length ≤ 1 := by
  unfold emaSignals; split <;> [(split <;> [skip; split]); skip] <;> simp

lemma length_bbSignals (a b : Option ℚ) : (bbSignals a b).length ≤ 1 := by
  unfold bbSignals; split <;> [split; skip] <;> simp

lemma length_volumeSignals (v : ℚ) : (volumeSignals v).length ≤ 1 := by
  unfold volumeSignals; split <;> simp

lemma length_mfiSignals (a : Option ℚ) : (mfiSignals a).length ≤ 1 := by
  unfold mfiSignals; split <;> [(split <;> [skip; split]); skip] <;> simp

/-- Membership in the signal list decomposes into the six groups, in
source order. -/
lemma mem_mkSignals {s : Signal} {lib : IndicatorLib} {df : Df} :
    s ∈ mkSignals lib df ↔
      s ∈ rsiSignals (ilocO (lib.rsi df.close) 2) (ilocO (lib.rsi df.close) 1)
      ∨ s ∈ macdSignals (ilocO (lib.macd df.close) 2)
          (ilocO (lib.macd df.close) 1)
      ∨ s ∈ emaSignals (ilocO (lib.emaShort df.close) 2)
          (ilocO (lib.emaShort df.close) 1) (ilocO (lib.emaLong df.close) 2)
          (ilocO (lib.emaLong df.close) 1)
      ∨ s ∈ bbSignals (ilocO (lib.bollingerWband df.close) 2)
          (ilocO (lib.bollingerWband df.close) 1)
      ∨ s ∈ volumeSignals (volume_ratio df)
      ∨ s ∈ mfiSignals
          (ilocO (lib.mfi df.high df.low df.close df.volume) 1) := by
  unfold mkSignals
  simp [List.mem_append, or_assoc]

/-- A returned record is the one built by `mkRecord` from a fetched frame
that passed the 30-bar guard. -/
lemma analyze_eq_some {lib : IndicatorLib}
    {fetch : String → Except String (Option Df)} {code name : String}
    {r : SignalRecord} (h : analyze_stock lib fetch code name = some r) :
    ∃ df : Df, fetch code = Except.ok (some df) ∧ ¬df.len < 30 ∧
      r = mkRecord lib df code name := by
  unfold analyze_stock at h
  rcases hf : fetch code with e | o <;> rw [hf] at h
  · simp at h
  · rcases o with _ | df
    · simp at h
    · by_cases hlen : df.len < 30
      · simp [hlen] at h
      · simp only [hlen, if_false] at h
        exact ⟨df, rfl, hlen, (Option.some.inj h).symm⟩

/-! ### NaN-guard lemmas: branches whose comparisons touch an undefined
indicator value never fire -/

lemma rsiSignals_last_none (a : Option ℚ) : rsiSignals a none = [] := by
  simp [rsiSignals, ngtB, nltB]

lemma rsiExit_not_mem_prev_none (b : Option ℚ) :
    Signal.rsiOversoldExit ∉ rsiSignals none b := by
  unfold rsiSignals
  split <;> [skip; split] <;> simp_all [nleB]

lemma macdSignals_prev_none (b : Option ℚ) : macdSignals none b = [] := by
  simp [macdSignals]

lemma macdSignals_last_none (a : Option ℚ) : macdSignals a none = [] := by
  simp [macdSignals]

lemma emaSignals_slast_none (a c d : Option ℚ) :
    emaSignals a none c d = [] := by
  simp [emaSignals]

lemma emaSignals_llast_none (a b c : Option ℚ) :
    emaSignals a b c none = [] := by
  simp [emaSignals]

lemma emaCross_not_mem_sprev_none (b c d : Option ℚ) :
    Signal.emaGoldenCross ∉ emaSignals none b c d := by
  unfold emaSignals
  split <;> [(split <;> [skip; split]); skip] <;> simp_all [oleB]

lemma emaCross_not_mem_lprev_none (a b d : Option ℚ) :
    Signal.emaGoldenCross ∉ emaSignals a b none d := by
  unfold emaSignals
  split <;> [(split <;> [skip; split]); skip] <;> simp_all [oleB]

lemma bbSignals_last_none (a : Option ℚ) : bbSignals a none = [] := by
  simp [bbSignals]

lemma bbSignals_prev_none (b : Option ℚ) : bbSignals none b = [] := by
  simp [bbSignals, nltB]

lemma mfiSignals_none : mfiSignals none = [] := by
  simp [mfiSignals]

/-! ### Cross-group extraction: a label can only come from its own group -/

lemma mem_rsi_of_mkSignals {s : Signal} {lib : IndicatorLib} {df : Df}
    (h : s ∈ mkSignals lib df) (hg : groupOf s = 1) :
    s ∈ rsiSignals (ilocO (lib.rsi df.close) 2)
      (ilocO (lib.rsi df.close) 1) := by
  rcases mem_mkSignals.1 h with h' | h' | h' | h' | h' | h'
  · exact h'
  · have := groupOf_mem_macdSignals h'; omega
  · have := groupOf_mem_emaSignals h'; omega
  · have := groupOf_mem_bbSignals h'; omega
  · have := groupOf_mem_volumeSignals h'; omega
  · have := groupOf_mem_mfiSignals h'; omega

lemma mem_macd_of_mkSignals {s : Signal} {lib : IndicatorLib} {df : Df}
    (h : s ∈ mkSignals lib df) (hg : groupOf s = 2) :
    s ∈ macdSignals (ilocO (lib.macd df.close) 2)
      (ilocO (lib.macd df.close) 1) := by
  rcases mem_mkSignals.1 h with h' | h' | h' | h' | h' | h'
  · have := groupOf_mem_rsiSignals h'; omega
  · exact h'
  · have := groupOf_mem_emaSignals h'; omega
  · have := groupOf_mem_bbSignals h'; omega
  · have := groupOf_mem_volumeSignals h'; omega
  · have := groupOf_mem_mfiSignals h'; omega

lemma mem_ema_of_mkSignals {s : Signal} {lib : IndicatorLib} {df : Df}
    (h : s ∈ mkSignals lib df) (hg : groupOf s = 3) :
    s ∈ emaSignals (ilocO (lib.emaShort df.close) 2)
      (ilocO (lib.emaShort df.close) 1) (ilocO (lib.emaLong df.close) 2)
      (ilocO (lib.emaLong df.close) 1) := by
  rcases mem_mkSignals.1 h with h' | h' | h' | h' | h' | h'
  · have := groupOf_mem_rsiSignals h'; omega
  · have := groupOf_mem_macdSignals h'; omega
  · exact h'
  · have := groupOf_mem_bbSignals h'; omega
  · have := groupOf_mem_volumeSignals h'; omega
  · have := groupOf_mem_mfiSignals h'; omega

lemma mem_bb_of_mkSignals {s : Signal} {lib : IndicatorLib} {df : Df}
    (h : s ∈ mkSignals lib df) (hg : groupOf s = 4) :
    s ∈ bbSignals (ilocO (lib.bollingerWband df.close) 2)
      (ilocO (lib.bollingerWband df.close) 1) := by
  rcases mem_mkSignals.1 h with h' | h' | h' | h' | h' | h'
  · have := groupOf_mem_rsiSignals h'; omega
  · have := groupOf_mem_macdSignals h'; omega
  · have := groupOf_mem_emaSignals h'; omega
  · exact h'
  · have := groupOf_mem_volumeSignals h'; omega
  · have := groupOf_mem_mfiSignals h'; omega

lemma mem_volume_of_mkSignals {s : Signal} {lib : IndicatorLib} {df : Df}
    (h : s ∈ mkSignals lib df) (hg : groupOf s = 5) :
    s ∈ volumeSignals (volume_ratio df) := by
  rcases mem_mkSignals.1 h with h' | h' | h' | h' | h' | h'
  · have := groupOf_mem_rsiSignals h'; omega
  · have := groupOf_mem_macdSignals h'; omega
  · have := groupOf_mem_emaSignals h'; omega
  · have := groupOf_mem_bbSignals h'; omega
  · exact h'
  · have := groupOf_mem_mfiSignals h'; omega

lemma mem_mfi_of_mkSignals {s : Signal} {lib : IndicatorLib} {df : Df}
    (h : s ∈ mkSignals lib df) (hg : groupOf s = 6) :
    s ∈ mfiSignals (ilocO (lib.mfi df.high df.low df.close df.volume) 1) := by
  rcases mem_mkSignals.1 h with h' | h' | h' | h' | h' | h'
  · have := groupOf_mem_rsiSignals h'; omega
  · have := groupOf_mem_macdSignals h'; omega
  · have := groupOf_mem_emaSignals h'; omega
  · have := groupOf_mem_bbSignals h'; omega
  · have := groupOf_mem_volumeSignals h'; omega
  · exact h'

/-! ### In-group exclusivity -/

lemma rsiSignals_not_both (a b : Option ℚ) :
    ¬(Signal.rsiOversoldExit ∈ rsiSignals a b ∧
      Signal.rsiOversoldState ∈ rsiSignals a b) := by
  unfold rsiSignals
  split <;> [skip; split] <;> simp

lemma emaSignals_not_both (a b c d : Option ℚ) :
    ¬(Signal.emaGoldenCross ∈ emaSignals a b c d ∧
      Signal.emaUptrend ∈ emaSignals a b c d) := by
  unfold emaSignals
  split <;> [(split <;> [skip; split]); skip] <;> simp

lemma mfiSignals_not_both (a : Option ℚ) :
    ¬(Signal.mfiOversold ∈ mfiSignals a ∧
      Signal.mfiOverbought ∈ mfiSignals a) := by
  unfold mfiSignals
  split <;> [(split <;> [skip; split]); skip] <;> simp

/-! ### Record projections -/

lemma mkRecord_signals (lib : IndicatorLib) (df : Df) (code name : String) :
    (mkRecord lib df code name).signals = mkSignals lib df := rfl

lemma mkRecord_signal_count (lib : IndicatorLib) (df : Df)
    (code name : String) :
    (mkRecord lib df code name).signal_count = (mkSignals lib df).length := rfl

lemma mkRecord_volume_ratio (lib : IndicatorLib) (df : Df)
    (code name : String) :
    (mkRecord lib df code name).volume_ratio = round2 (volume_ratio df) := rfl

lemma mkSignals_length_le (lib : IndicatorLib) (df : Df) :
    (mkSignals lib df).length ≤ 6 := by
  unfold mkSignals
  simp only [List.length_append]
  have h1 := length_rsiSignals (ilocO (lib.rsi df.close) 2)
    (ilocO (lib.rsi df.close) 1)
  have h2 := length_macdSignals (ilocO (lib.macd df.close) 2)
    (ilocO (lib.macd df.close) 1)
  have h3 := length_emaSignals (ilocO (lib.emaShort df.close) 2)
    (ilocO (lib.emaShort df.close) 1) (ilocO (lib.emaLong df.close) 2)
    (ilocO (lib.emaLong df.close) 1)
  have h4 := length_bbSignals (ilocO (lib.bollingerWband df.close) 2)
    (ilocO (lib.bollingerWband df.close) 1)
  have h5 := length_volumeSignals (volume_ratio df)
  have h6 := length_mfiSignals
    (ilocO (lib.mfi df.high df.low df.close df.volume) 1)
  omega

lemma countP_group_le {l : List Signal} {j : Nat}
    (hall : ∀ s ∈ l, groupOf s = j) (hlen : l.length ≤ 1) (i : Nat) :
    (l.countP fun s => groupOf s == i) ≤ if j = i then 1 else 0 := by
  split
  · exact le_trans (List.countP_le_length _) hlen
  · next hne =>
    rw [Nat.le_zero, List.countP_eq_zero]
    intro s hs
    simp [hall s hs]
    omega

/-! ### Claims -/

/-- C3: for every fetched history that is empty (`None` frame or zero
bars, both covered) or has fewer than 30 bars, `analyze_stock` returns
`None`, not an error. -/
theorem analyze_short_history_absent (lib : IndicatorLib)
    (fetch : String → Except String (Option Df)) (code name : String) :
    (fetch code = Except.ok none → analyze_stock lib fetch code name = none)
    ∧ ∀ df : Df, fetch code = Except.ok (some df) → df.len < 30 →
        analyze_stock lib fetch code name = none := by
  constructor
  · intro h
    simp [analyze_stock, h]
  · intro df h hlen
    simp [analyze_stock, h, hlen]

/-- Witness for C3: a missing frame and an empty frame both map to
`None`. -/
theorem analyze_short_history_absent_witness :
    analyze_stock lib0 fetchNone "X" "X" = none
    ∧ analyze_stock lib0 fetchShort "X" "X" = none :=
  ⟨(analyze_short_history_absent lib0 fetchNone "X" "X").1 rfl,
   (analyze_short_history_absent lib0 fetchShort "X" "X").2 dfShort rfl
     (by decide)⟩

/-- C9: `analyze_stock` is deterministic in the instrument's fetched
history: two environments that agree on this instrument's fetch produce
identical records. -/
theorem analyze_deterministic (lib : IndicatorLib)
    (fetch fetch' : String → Except String (Option Df)) (code name : String)
    (h : fetch code = fetch' code) :
    analyze_stock lib fetch code name =
      analyze_stock lib fetch' code name := by
  unfold analyze_stock
  rw [h]

/-- Witness for C9 at two syntactically different fetch environments that
agree on instrument `"A"`. -/
theorem analyze_deterministic_witness :
    analyze_stock libC5 fetchC5 "A" "A" =
      analyze_stock libC5 fetchFlat "A" "A" :=
  analyze_deterministic libC5 fetchC5 fetchFlat
    "A" "A" (by simp [fetchC5, fetchFlat])

/-- C4: the RSI pair, the EMA pair and the MFI pair of signals are
mutually exclusive in every returned record. -/
theorem analyze_signal_rules_mutually_exclusive (lib : IndicatorLib)
    (fetch : String → Except String (Option Df)) (code name : String)
    (r : SignalRecord) (h : analyze_stock lib fetch code name = some r) :
    ¬(Signal.rsiOversoldExit ∈ r.signals ∧
      Signal.rsiOversoldState ∈ r.signals)
    ∧ ¬(Signal.emaGoldenCross ∈ r.signals ∧ Signal.emaUptrend ∈ r.signals)
    ∧ ¬(Signal.mfiOversold ∈ r.signals ∧
        Signal.mfiOverbought ∈ r.signals) := by
  obtain ⟨df, -, -, rfl⟩ := analyze_eq_some h
  rw [mkRecord_signals]
  refine ⟨?_, ?_, ?_⟩
  · rintro ⟨h1, h2⟩
    exact rsiSignals_not_both _ _
      ⟨mem_rsi_of_mkSignals h1 rfl, mem_rsi_of_mkSignals h2 rfl⟩
  · rintro ⟨h1, h2⟩
    exact emaSignals_not_both _ _ _ _
      ⟨mem_ema_of_mkSignals h1 rfl, mem_ema_of_mkSignals h2 rfl⟩
  · rintro ⟨h1, h2⟩
    exact mfiSignals_not_both _
      ⟨mem_mfi_of_mkSignals h1 rfl, mem_mfi_of_mkSignals h2 rfl⟩

/-- C10: a returned record carries at most one signal per rule group and
hence at most 6 signals. -/
theorem signal_count_le_six (lib : IndicatorLib)
    (fetch : String → Except String (Option Df)) (code name : String)
    (r : SignalRecord) (h : analyze_stock lib fetch code name = some r) :
    r.signal_count ≤ 6
    ∧ ∀ i : Nat, (r.signals.countP fun s => groupOf s == i) ≤ 1 := by
  obtain ⟨df, -, -, rfl⟩ := analyze_eq_some h
  rw [mkRecord_signal_count, mkRecord_signals]
  refine ⟨mkSignals_length_le lib df, fun i => ?_⟩
  unfold mkSignals
  simp only [List.countP_append]
  have b1 := countP_group_le (fun s hs => groupOf_mem_rsiSignals hs)
    (length_rsiSignals (ilocO (lib.rsi df.close) 2)
      (ilocO (lib.rsi df.close) 1)) i
  have b2 := countP_group_le (fun s hs => groupOf_mem_macdSignals hs)
    (length_macdSignals (ilocO (lib.macd df.close) 2)
      (ilocO (lib.macd df.close) 1)) i
  have b3 := countP_group_le (fun s hs => groupOf_mem_emaSignals hs)
    (length_emaSignals (ilocO (lib.emaShort df.close) 2)
      (ilocO (lib.emaShort df.close) 1) (ilocO (lib.emaLong df.close) 2)
      (ilocO (lib.emaLong df.close) 1)) i
  have b4 := countP_group_le (fun s hs => groupOf_mem_bbSignals hs)
    (length_bbSignals (ilocO (lib.bollingerWband df.close) 2)
      (ilocO (lib.bollingerWband df.close) 1)) i
  have b5 := countP_group_le (fun s hs => groupOf_mem_volumeSignals hs)
    (length_volumeSignals (volume_ratio df)) i
  have b6 := countP_group_le (fun s hs => groupOf_mem_mfiSignals hs)
    (length_mfiSignals
      (ilocO (lib.mfi df.high df.low df.close df.volume) 1)) i
  split_ifs at b1 b2 b3 b4 b5 b6 <;> omega

/-- C8: faults are contained — a raised fetch for one instrument yields
`None` for that instrument; a failed universe listing yields an empty
screen; and a raising instrument drops out of the screen without
affecting the other rows. -/
theorem failure_isolation :
    (∀ (lib : IndicatorLib) (fetch : String → Except String (Option Df))
        (code name e : String), fetch code = Except.error e →
        analyze_stock lib fetch code name = none)
    ∧ (∀ (lib : IndicatorLib) (fetch : String → Except String (Option Df))
        (e : String) (limit : Nat),
        scan_korean_stocks lib fetch (Except.error e) limit = [])
    ∧ ∀ (lib : IndicatorLib) (fetch : String → Except String (Option Df))
        (row : Row) (rest : List Row) (limit : Nat) (e : String),
        fetch row.code = Except.error e →
        scan_korean_stocks lib fetch (Except.ok (row :: rest)) limit =
          scan_korean_stocks lib fetch (Except.ok rest) limit := by
  refine ⟨?_, ?_, ?_⟩
  · intro lib fetch code name e h
    simp [analyze_stock, h]
  · intro lib fetch e limit
    rfl
  · intro lib fetch row rest limit e h
    have hnone : analyze_stock lib fetch row.code row.name = none := by
      simp [analyze_stock, h]
    unfold scan_korean_stocks collectResults
    simp only [List.foldl_cons]
    by_cases hc : row.code = ""
    · simp [hc]
    · simp [hc, hnone]

/-- Witness for C8: a raising fetch at concrete inputs. -/
theorem failure_isolation_witness :
    analyze_stock lib0 fetchErr "X" "X" = none
    ∧ scan_korean_stocks lib0 fetchErr (Except.error "listing failed") 10 = []
    ∧ scan_korean_stocks lib0 fetchErr (Except.ok [⟨"X", "X"⟩]) 10 =
        scan_korean_stocks lib0 fetchErr (Except.ok []) 10 :=
  ⟨failure_isolation.1 lib0 fetchErr "X" "X" "network down" rfl,
   failure_isolation.2.1 lib0 fetchErr "listing failed" 10,
   failure_isolation.2.2 lib0 fetchErr ⟨"X", "X"⟩ [] 10 "network down" rfl⟩

/-- C5 (amended): with an aligned indicator set on a ≥30-bar history,
`analyze_stock` never fails, and no branch whose comparison consults an
undefined indicator value ever fires: an undefined current-bar value
silences its whole rule group, and an undefined previous-bar value
silences the cross/exit branch guarded by it.  (The else-branches "RSI
oversold state" and "EMA uptrend" consult only current-bar values and may
still fire when the previous-bar value is undefined.) -/
theorem analyze_nan_guard_amended (lib : IndicatorLib)
    (fetch : String → Except String (Option Df)) (code name : String)
    (df : Df) (hf : fetch code = Except.ok (some df)) (h30 : 30 ≤ df.len)
    (hr : (lib.rsi df.close).length = df.len)
    (hm : (lib.macd df.close).length = df.len)
    (hes : (lib.emaShort df.close).length = df.len)
    (hel : (lib.emaLong df.close).length = df.len)
    (hb : (lib.bollingerWband df.close).length = df.len)
    (hmf : (lib.mfi df.high df.low df.close df.volume).length = df.len) :
    (analyze_stock lib fetch code name).isSome = true
    ∧ ∀ r : SignalRecord, analyze_stock lib fetch code name = some r →
        (ilocO (lib.rsi df.close) 1 = none →
          Signal.rsiOversoldExit ∉ r.signals ∧
          Signal.rsiOversoldState ∉ r.signals)
        ∧ (ilocO (lib.rsi df.close) 2 = none →
            Signal.rsiOversoldExit ∉ r.signals)
        ∧ (ilocO (lib.macd df.close) 2 = none ∨
            ilocO (lib.macd df.close) 1 = none →
            Signal.macdGoldenCross ∉ r.signals)
        ∧ (ilocO (lib.emaShort df.close) 1 = none ∨
            ilocO (lib.emaLong df.close) 1 = none →
            Signal.emaGoldenCross ∉ r.signals ∧
            Signal.emaUptrend ∉ r.signals)
        ∧ (ilocO (lib.emaShort df.close) 2 = none ∨
            ilocO (lib.emaLong df.close) 2 = none →
            Signal.emaGoldenCross ∉ r.signals)
        ∧ (ilocO (lib.bollingerWband df.close) 1 = none →
            Signal.bbLowerBounce ∉ r.signals)
        ∧ (ilocO (lib.bollingerWband df.close) 2 = none →
            Signal.bbLowerBounce ∉ r.signals)
        ∧ (ilocO (lib.mfi df.high df.low df.close df.volume) 1 = none →
            Signal.mfiOversold ∉ r.signals ∧
            Signal.mfiOverbought ∉ r.signals) := by
  have hlen : ¬df.len < 30 := by omega
  have hsome : analyze_stock lib fetch code name =
      some (mkRecord lib df code name) := by
    simp [analyze_stock, hf, hlen]
  refine ⟨by simp [hsome], fun r hrr => ?_⟩
  rw [hsome] at hrr
  obtain rfl := (Option.some.inj hrr).symm
  rw [mkRecord_signals]
  refine ⟨fun hnone => ⟨fun hmem => ?_, fun hmem => ?_⟩,
    fun hnone hmem => ?_, fun hnone hmem => ?_,
    fun hnone => ⟨fun hmem => ?_, fun hmem => ?_⟩,
    fun hnone hmem => ?_, fun hnone hmem => ?_, fun hnone hmem => ?_,
    fun hnone => ⟨fun hmem => ?_, fun hmem => ?_⟩⟩
  · have h' := mem_rsi_of_mkSignals hmem rfl
    rw [hnone, rsiSignals_last_none] at h'
    simp at h'
  · have h' := mem_rsi_of_mkSignals hmem rfl
    rw [hnone, rsiSignals_last_none] at h'
    simp at h'
  · have h' := mem_rsi_of_mkSignals hmem rfl
    rw [hnone] at h'
    exact rsiExit_not_mem_prev_none _ h'
  · have h' := mem_macd_of_mkSignals hmem rfl
    rcases hnone with hnone | hnone <;> rw [hnone] at h'
    · rw [macdSignals_prev_none] at h'
      simp at h'
    · rw [macdSignals_last_none] at h'
      simp at h'
  · have h' := mem_ema_of_mkSignals hmem rfl
    rcases hnone with hnone | hnone <;> rw [hnone] at h'
    · rw [emaSignals_slast_none] at h'
      simp at h'
    · rw [emaSignals_llast_none] at h'
      simp at h'
  · have h' := mem_ema_of_mkSignals hmem rfl
    rcases hnone with hnone | hnone <;> rw [hnone] at h'
    · rw [emaSignals_slast_none] at h'
      simp at h'
    · rw [emaSignals_llast_none] at h'
      simp at h'
  · have h' := mem_ema_of_mkSignals hmem rfl
    rcases hnone with hnone | hnone <;> rw [hnone] at h'
    · exact emaCross_not_mem_sprev_none _ _ _ h'
    · exact emaCross_not_mem_lprev_none _ _ _ h'
  · have h' := mem_bb_of_mkSignals hmem rfl
    rw [hnone, bbSignals_last_none] at h'
    simp at h'
  · have h' := mem_bb_of_mkSignals hmem rfl
    rw [hnone, bbSignals_prev_none] at h'
    simp at h'
  · have h' := mem_mfi_of_mkSignals hmem rfl
    rw [hnone, mfiSignals_none] at h'
    simp at h'
  · have h' := mem_mfi_of_mkSignals hmem rfl
    rw [hnone, mfiSignals_none] at h'
    simp at h'

/-! ### Evaluation helpers for concrete frames -/

lemma getD_replicate {α : Type} (a d : α) {n i : Nat} (h : i < n) :
    (List.replicate n a).getD i d = a := by
  rw [List.getD_eq_getElem?_getD, List.getElem?_replicate, if_pos h]
  rfl

lemma ilocO_rep_concat_one (n : Nat) (a x : Option ℚ) :
    ilocO (List.replicate n a ++ [x]) 1 = x := by
  unfold ilocO
  rw [if_pos (by simp)]
  simp only [List.length_append, List.length_replicate, List.length_singleton]
  rw [List.getD_append_right _ _ _ _ (by simp)]
  simp

lemma ilocO_rep_concat_two {n : Nat} (h : 0 < n) (a x : Option ℚ) :
    ilocO (List.replicate n a ++ [x]) 2 = a := by
  unfold ilocO
  rw [if_pos (by simp; omega)]
  simp only [List.length_append, List.length_replicate, List.length_singleton]
  rw [List.getD_append _ _ _ _ (by simp; omega)]
  exact getD_replicate _ _ (by omega)

lemma ilocQ_rep_concat_one (n : Nat) (a x : ℚ) :
    ilocQ (List.replicate n a ++ [x]) 1 = x := by
  unfold ilocQ
  rw [if_pos (by simp)]
  simp only [List.length_append, List.length_replicate, List.length_singleton]
  rw [List.getD_append_right _ _ _ _ (by simp)]
  simp

lemma getD_qnone (c : List ℚ) (i : Nat) : (qnone c).getD i none = none := by
  induction c generalizing i with
  | nil => rfl
  | cons x xs ih =>
    cases i with
    | zero => rfl
    | succ i => exact ih i

lemma ilocO_qnone (c : List ℚ) (k : Nat) : ilocO (qnone c) k = none := by
  unfold ilocO
  split
  · exact getD_qnone c _
  · rfl

lemma avg_volume_rep_concat (h l c : List ℚ) (a b : ℚ) :
    avg_volume ⟨h, l, c, List.replicate 29 a ++ [b]⟩ = a := by
  unfold avg_volume
  simp only [List.length_append, List.length_replicate, List.length_singleton,
    Nat.sub_self, List.drop_zero, List.dropLast_concat, List.sum_replicate,
    List.length_replicate, nsmul_eq_mul]
  norm_num

lemma volume_ratio_rep_concat (h l c : List ℚ) (a b : ℚ) (ha : 0 < a) :
    volume_ratio ⟨h, l, c, List.replicate 29 a ++ [b]⟩ = b / a := by
  unfold volume_ratio
  rw [avg_volume_rep_concat, if_pos ha]
  show ilocQ (List.replicate 29 a ++ [b]) 1 / a = b / a
  rw [ilocQ_rep_concat_one]

lemma volumeSignals_of_lt {v : ℚ} (h : v < volume_surge_ratio) :
    volumeSignals v = [] := by
  unfold volumeSignals
  rw [if_neg (not_le.2 h)]

lemma volumeSignals_of_le {v : ℚ} (h : volume_surge_ratio ≤ v) :
    volumeSignals v = [Signal.volumeSurge (round1 v)] := by
  unfold volumeSignals
  rw [if_pos h]

lemma rsiSignals_below (a : Option ℚ) (x : ℚ) (hx : x < RSI_OVERSOLD)
    (ha : nleB a RSI_OVERSOLD = false) :
    rsiSignals a (some x) = [Signal.rsiOversoldState] := by
  unfold rsiSignals
  rw [ha]
  simp [nltB, hx]

lemma rep30_eq (a : ℚ) : List.replicate 30 a = List.replicate 29 a ++ [a] := by
  show List.replicate (29 + 1) a = _
  rw [List.replicate_succ']

lemma dfFlat_len : dfFlat.len = 30 := by
  simp [dfFlat, Df.len]

lemma dfBoundary_len : dfBoundary.len = 30 := by
  simp [dfBoundary, Df.len]

lemma dfBTC_len : dfBTC.len = 30 := by
  simp [dfBTC, Df.len, closesA]

lemma dfETH_len : dfETH.len = 30 := by
  simp [dfETH, Df.len, closesA]

lemma rsiC5_dfFlat :
    rsiC5 dfFlat.close = List.replicate 29 none ++ [some 30] := by
  show rsiC5 (List.replicate 30 100) = _
  unfold rsiC5
  norm_num

lemma rsiEcho_closesA :
    rsiEcho closesA = List.replicate 29 (some 40) ++ [some 30] := by
  unfold rsiEcho closesA
  simp

lemma volume_ratio_dfFlat : volume_ratio dfFlat = 1 := by
  have h1 : dfFlat = ⟨List.replicate 30 100, List.replicate 30 100,
      List.replicate 30 100, List.replicate 29 1 ++ [1]⟩ := by
    unfold dfFlat flatVol
    rw [rep30_eq 1]
  rw [h1, volume_ratio_rep_concat _ _ _ _ _ one_pos]
  norm_num

lemma volume_ratio_dfBTC : volume_ratio dfBTC = 1 := by
  have h1 : dfBTC = ⟨closesA, closesA, closesA,
      List.replicate 29 1 ++ [1]⟩ := by
    unfold dfBTC flatVol
    rw [rep30_eq 1]
  rw [h1, volume_ratio_rep_concat _ _ _ _ _ one_pos]
  norm_num

lemma volume_ratio_dfETH : volume_ratio dfETH = 3 := by
  unfold dfETH
  rw [volume_ratio_rep_concat _ _ _ _ _ one_pos]
  norm_num

lemma volume_ratio_dfBoundary :
    volume_ratio dfBoundary = volume_surge_ratio := by
  unfold dfBoundary
  rw [volume_ratio_rep_concat _ _ _ _ _ (by norm_num)]
  norm_num [volume_surge_ratio]

/-- Under a library whose only defined indicator is the RSI, the signal
list reduces to the RSI group followed by the volume group. -/
lemma mkSignals_rsi_only (rsiF : List ℚ → List (Option ℚ)) (df : Df) :
    mkSignals { lib0 with rsi := rsiF } df =
      rsiSignals (ilocO (rsiF df.close) 2) (ilocO (rsiF df.close) 1)
      ++ volumeSignals (volume_ratio df) := by
  simp only [mkSignals]
  rw [show lib0.macd = qnone from rfl,
    show lib0.emaShort = qnone from rfl,
    show lib0.emaLong = qnone from rfl,
    show lib0.bollingerWband = qnone from rfl,
    show lib0.mfi = (fun _ _ _ v => qnone v) from rfl]
  simp only [ilocO_qnone]
  rw [macdSignals_prev_none, emaSignals_slast_none, bbSignals_last_none,
    mfiSignals_none]
  simp

lemma mkSignals_libC5_dfFlat :
    mkSignals libC5 dfFlat = [Signal.rsiOversoldState] := by
  unfold libC5
  rw [mkSignals_rsi_only, rsiC5_dfFlat,
    ilocO_rep_concat_two (by norm_num), ilocO_rep_concat_one,
    volume_ratio_dfFlat,
    volumeSignals_of_lt (by norm_num [volume_surge_ratio]),
    rsiSignals_below none 30 (by norm_num [RSI_OVERSOLD]) rfl]
  rfl

lemma nleB_some40_false : nleB (some 40) RSI_OVERSOLD = false := by
  show decide ((40 : ℚ) ≤ RSI_OVERSOLD) = false
  rw [decide_eq_false_iff_not]
  norm_num [RSI_OVERSOLD]

lemma mkSignals_libId_dfBTC :
    mkSignals libId dfBTC = [Signal.rsiOversoldState] := by
  unfold libId
  rw [mkSignals_rsi_only,
    show dfBTC.close = closesA from rfl, rsiEcho_closesA,
    ilocO_rep_concat_two (by norm_num), ilocO_rep_concat_one,
    volume_ratio_dfBTC,
    volumeSignals_of_lt (by norm_num [volume_surge_ratio]),
    rsiSignals_below (some 40) 30 (by norm_num [RSI_OVERSOLD])
      nleB_some40_false]
  rfl

lemma mkSignals_libId_dfETH :
    mkSignals libId dfETH =
      [Signal.rsiOversoldState, Signal.volumeSurge (round1 3)] := by
  unfold libId
  rw [mkSignals_rsi_only,
    show dfETH.close = closesA from rfl, rsiEcho_closesA,
    ilocO_rep_concat_two (by norm_num), ilocO_rep_concat_one,
    volume_ratio_dfETH,
    volumeSignals_of_le (by norm_num [volume_surge_ratio]),
    rsiSignals_below (some 40) 30 (by norm_num [RSI_OVERSOLD])
      nleB_some40_false]
  rfl

lemma hasVolumeSurge_exists {l : List Signal} :
    hasVolumeSurge l = true ↔ ∃ q, Signal.volumeSurge q ∈ l := by
  unfold hasVolumeSurge
  rw [List.any_eq_true]
  constructor
  · rintro ⟨s, hs, hmatch⟩
    rcases s with _ | _ | _ | _ | _ | _ | q | _ | _ <;> try simp at hmatch
    exact ⟨q, hs⟩
  · rintro ⟨q, hq⟩
    exact ⟨_, hq, rfl⟩

/-- C5 counterexample: a ≥30-bar history whose RSI is undefined at the
previous bar and 30 at the current bar.  The RSI rule consults the
undefined `rsi[-2]` (the oversold-exit comparison evaluates false on
`NaN`), falls into its else-branch and appends "RSI oversold state": the
rule does append a signal even though an indicator value it consulted is
undefined, refuting the claim as stated. -/
theorem analyze_nan_rule_fires_cex :
    30 ≤ dfFlat.len
    ∧ ilocO (libC5.rsi dfFlat.close) 2 = none
    ∧ (analyze_stock libC5 fetchC5 "A" "A").map SignalRecord.signals =
        some [Signal.rsiOversoldState] := by
  refine ⟨by rw [dfFlat_len], ?_, ?_⟩
  · show ilocO (rsiC5 dfFlat.close) 2 = none
    rw [rsiC5_dfFlat]
    exact ilocO_rep_concat_two (by norm_num) _ _
  · have hsome : analyze_stock libC5 fetchC5 "A" "A" =
        some (mkRecord libC5 dfFlat "A" "A") := by
      simp [analyze_stock, fetchC5, dfFlat_len]
    rw [hsome]
    simp [mkRecord_signals, mkSignals_libC5_dfFlat]

/-- Witness for the amended C5 at the concrete scenario of the
counterexample: the analysis still does not fail there. -/
theorem analyze_nan_guard_amended_witness :
    (analyze_stock libC5 fetchC5 "A" "A").isSome = true :=
  (analyze_nan_guard_amended libC5 fetchC5 "A" "A" dfFlat
    (by simp [fetchC5]) (by rw [dfFlat_len])
    (by rw [show libC5.rsi dfFlat.close = List.replicate 29 none ++ [some 30]
          from rsiC5_dfFlat, dfFlat_len]
        simp)
    (by simp [libC5, lib0, qnone, Df.len])
    (by simp [libC5, lib0, qnone, Df.len])
    (by simp [libC5, lib0, qnone, Df.len])
    (by simp [libC5, lib0, qnone, Df.len])
    (by simp [libC5, lib0, qnone, dfFlat, flatVol, Df.len])).1

/-- C6: the volume-surge signal is in a returned record iff the frame's
volume ratio reaches the surge threshold 1.5 (inclusive). -/
theorem volume_surge_iff_threshold (lib : IndicatorLib)
    (fetch : String → Except String (Option Df)) (code name : String)
    (df : Df) (r : SignalRecord) (hf : fetch code = Except.ok (some df))
    (h : analyze_stock lib fetch code name = some r) :
    hasVolumeSurge r.signals = true ↔
      volume_surge_ratio ≤ volume_ratio df := by
  obtain ⟨df', hf', -, rfl⟩ := analyze_eq_some h
  rw [hf] at hf'
  have h1 : some df = some df' := by injection hf'
  injection h1 with h2
  subst h2
  rw [mkRecord_signals]
  constructor
  · intro hs
    obtain ⟨q, hq⟩ := hasVolumeSurge_exists.1 hs
    have h5 := mem_volume_of_mkSignals hq rfl
    by_contra hlt
    rw [volumeSignals_of_lt (not_le.1 hlt)] at h5
    simp at h5
  · intro hthr
    apply hasVolumeSurge_exists.2
    refine ⟨round1 (volume_ratio df), mem_mkSignals.2 ?_⟩
    refine .inr (.inr (.inr (.inr (.inl ?_))))
    rw [volumeSignals_of_le hthr]
    simp

/-- Witness for C6 at the boundary: a frame whose last volume is exactly
1.5x the trailing average does carry the surge signal. -/
theorem volume_surge_iff_threshold_witness :
    volume_ratio dfBoundary = volume_surge_ratio
    ∧ hasVolumeSurge (mkRecord lib0 dfBoundary "B" "B").signals = true := by
  have hsome : analyze_stock lib0 fetchBoundary "B" "B" =
      some (mkRecord lib0 dfBoundary "B" "B") := by
    simp [analyze_stock, fetchBoundary, dfBoundary_len]
  exact ⟨volume_ratio_dfBoundary,
    (volume_surge_iff_threshold lib0 fetchBoundary "B" "B" dfBoundary _
      (by simp [fetchBoundary]) hsome).mpr (le_of_eq volume_ratio_dfBoundary.symm)⟩

/-- C7: the volume ratio of an analyzed frame is the last volume over the
mean of the trailing 29 volumes, and 0 (not a fault) when that mean is
zero; the record stores it rounded to two decimals. -/
theorem volume_ratio_formula :
    (∀ df : Df, (∀ v ∈ df.volume, 0 ≤ v) →
        (avg_volume df = 0 → volume_ratio df = 0)
        ∧ (avg_volume df ≠ 0 →
            volume_ratio df = ilocQ df.volume 1 / avg_volume df))
    ∧ ∀ (lib : IndicatorLib) (fetch : String → Except String (Option Df))
        (code name : String) (df : Df) (r : SignalRecord),
        fetch code = Except.ok (some df) →
        analyze_stock lib fetch code name = some r →
        r.volume_ratio = round2 (volume_ratio df) := by
  constructor
  · intro df hnn
    have hge : 0 ≤ avg_volume df := by
      simp only [avg_volume]
      apply div_nonneg
      · apply List.sum_nonneg
        intro x hx
        exact hnn x (List.drop_subset _ _ (List.dropLast_subset _ hx))
      · exact Nat.cast_nonneg _
    constructor
    · intro h0
      unfold volume_ratio
      rw [if_neg]
      rw [h0]
      exact lt_irrefl 0
    · intro hne
      unfold volume_ratio
      rw [if_pos (lt_of_le_of_ne hge (Ne.symm hne))]
  · intro lib fetch code name df r hf h
    obtain ⟨df', hf', -, rfl⟩ := analyze_eq_some h
    rw [hf] at hf'
    have h1 : some df = some df' := by injection hf'
    injection h1 with h2
    subst h2
    rfl

/-- Witness for C7: an all-zero volume column yields ratio 0, not a
division fault. -/
theorem volume_ratio_formula_witness : volume_ratio dfZeroVol = 0 :=
  (volume_ratio_formula.1 dfZeroVol
    (by intro v hv
        simp [dfZeroVol, List.eq_of_mem_replicate hv])).1
    (by unfold dfZeroVol
        rw [rep30_eq 0, avg_volume_rep_concat])

/-- Witness for C4 at a concrete record. -/
theorem analyze_signal_rules_mutually_exclusive_witness :
    ¬(Signal.rsiOversoldExit ∈ (mkRecord lib0 dfBoundary "B" "B").signals
      ∧ Signal.rsiOversoldState ∈
          (mkRecord lib0 dfBoundary "B" "B").signals) :=
  (analyze_signal_rules_mutually_exclusive lib0 fetchBoundary "B" "B"
    (mkRecord lib0 dfBoundary "B" "B")
    (by simp [analyze_stock, fetchBoundary, dfBoundary_len])).1

/-- Witness for C10 at a concrete record. -/
theorem signal_count_le_six_witness :
    (mkRecord lib0 dfBoundary "B" "B").signal_count ≤ 6 :=
  (signal_count_le_six lib0 fetchBoundary "B" "B"
    (mkRecord lib0 dfBoundary "B" "B")
    (by simp [analyze_stock, fetchBoundary, dfBoundary_len])).1

/-! ### The screening passes as filterMaps -/

lemma collect_go (analyzer : String → String → Option SignalRecord)
    (rows : List Row) :
    ∀ acc : List SignalRecord,
      rows.foldl
        (fun results row =>
          if row.code = "" then results
          else
            match analyzer row.code row.name with
            | none => results
            | some analysis =>
                if 0 < analysis.signal_count then results ++ [analysis]
                else results)
        acc
      = acc ++ rows.filterMap (collectF analyzer) := by
  induction rows with
  | nil => intro acc; simp
  | cons row rest ih =>
    intro acc
    rw [List.foldl_cons, ih, List.filterMap_cons]
    unfold collectF
    by_cases hc : row.code = ""
    · simp [hc]
    · rcases ha : analyzer row.code row.name with _ | a
      · simp [hc, ha]
      · by_cases hp : 0 < a.signal_count
        · simp [hc, ha, hp]
        · simp [hc, ha, hp]

lemma collectResults_eq (analyzer : String → String → Option SignalRecord)
    (rows : List Row) :
    collectResults analyzer rows = rows.filterMap (collectF analyzer) := by
  unfold collectResults
  rw [collect_go]
  rfl

lemma collectF_pos {analyzer : String → String → Option SignalRecord}
    {row : Row} {r : SignalRecord} (h : collectF analyzer row = some r) :
    0 < r.signal_count := by
  unfold collectF at h
  split at h
  · exact absurd h (by simp)
  · rcases ha : analyzer row.code row.name with _ | a <;> rw [ha] at h
    · simp at h
    · simp at h
      rcases h with ⟨hp, h⟩
      subst h
      exact hp

lemma sortBySignalCount_pairwise (l : List SignalRecord) :
    (sortBySignalCount l).Pairwise
      fun a b => b.signal_count ≤ a.signal_count := by
  have h : (sortBySignalCount l).Pairwise
      fun a b => (decide (b.signal_count ≤ a.signal_count)) = true := by
    unfold sortBySignalCount
    exact List.sorted_mergeSort
      (by intro a b c hab hbc
          simp only [decide_eq_true_eq] at *
          omega)
      (by intro a b
          simp only [Bool.or_eq_true, decide_eq_true_eq]
          omega)
      l
  exact h.imp (by intro a b hb; simpa using hb)

lemma mem_sortBySignalCount {r : SignalRecord} {l : List SignalRecord}
    (h : r ∈ sortBySignalCount l) : r ∈ l :=
  (List.mergeSort_perm l _).mem_iff.1 h

/-- C2: the equity screen returns at most `limit` records, in
non-increasing signal-count order, with no zero-count record. -/
theorem equity_screen_bounded_sorted_nonzero (lib : IndicatorLib)
    (fetch : String → Except String (Option Df))
    (krx : Except String (List Row)) (limit : Nat) :
    (scan_korean_stocks lib fetch krx limit).length ≤ limit
    ∧ (scan_korean_stocks lib fetch krx limit).Pairwise
        (fun a b => b.signal_count ≤ a.signal_count)
    ∧ ∀ r ∈ scan_korean_stocks lib fetch krx limit,
        r.signal_count ≠ 0 := by
  rcases krx with e | rows
  · exact ⟨by simp [scan_korean_stocks], by simp [scan_korean_stocks],
      by simp [scan_korean_stocks]⟩
  · refine ⟨?_, ?_, ?_⟩
    · show ((sortBySignalCount
          (collectResults (analyze_stock lib fetch) rows)).take limit).length
        ≤ limit
      rw [List.length_take]
      exact min_le_left _ _
    · exact (sortBySignalCount_pairwise _).sublist (List.take_sublist _ _)
    · intro r hr
      have h1 : r ∈ sortBySignalCount
          (collectResults (analyze_stock lib fetch) rows) :=
        List.take_subset _ _ hr
      have h2 := mem_sortBySignalCount h1
      rw [collectResults_eq] at h2
      obtain ⟨row, -, hf⟩ := List.mem_filterMap.1 h2
      exact (collectF_pos hf).ne'

/-- Witness for C2 at a concrete universe. -/
theorem equity_screen_bounded_sorted_nonzero_witness :
    (scan_korean_stocks libId fetchCex (Except.ok rowsCex) 10).length ≤ 10 :=
  (equity_screen_bounded_sorted_nonzero libId fetchCex
    (Except.ok rowsCex) 10).1

lemma crypto_go (lib : IndicatorLib)
    (fetch : String → Except String (Option Df)) (symbols : List String) :
    ∀ acc : List SignalRecord,
      symbols.foldl
        (fun results symbol =>
          let code := symbol ++ "KRW"
          match fetch code with
          | .error _ => results
          | .ok none => results
          | .ok (some df) =>
              if df.len < 30 then results
              else
                match analyze_stock lib fetch code symbol with
                | none => results
                | some analysis =>
                    if 0 < analysis.signal_count then results ++ [analysis]
                    else results)
        acc
      = acc ++ symbols.filterMap (cryptoF lib fetch) := by
  induction symbols with
  | nil => intro acc; simp
  | cons s rest ih =>
    intro acc
    rw [List.foldl_cons, ih, List.filterMap_cons]
    unfold cryptoF
    rcases hf : fetch (s ++ "KRW") with e | o
    · simp [hf]
    · rcases o with _ | df
      · simp [hf]
      · by_cases hlen : df.len < 30
        · simp [hf, hlen]
        · rcases ha : analyze_stock lib fetch (s ++ "KRW") s with _ | a
          · simp [hf, hlen, ha]
          · by_cases hp : 0 < a.signal_count
            · simp [hf, hlen, ha, hp]
            · simp [hf, hlen, ha, hp]

/-- The crypto loop body equals the plain discard policy of the spec: the
pre-fetch guard is redundant because `analyze_stock` re-fetches the same
code and re-checks the same guard. -/
lemma cryptoF_eq_specF (lib : IndicatorLib)
    (fetch : String → Except String (Option Df)) (s : String) :
    cryptoF lib fetch s =
      match analyze_stock lib fetch (s ++ "KRW") s with
      | none => none
      | some r => if 0 < r.signal_count then some r else none := by
  unfold cryptoF
  rcases hf : fetch (s ++ "KRW") with e | o
  · simp [analyze_stock, hf]
  · rcases o with _ | df
    · simp [analyze_stock, hf]
    · by_cases hlen : df.len < 30
      · simp [analyze_stock, hf, hlen]
      · simp [hf, hlen]

/-- C1 (amended): the equity screener follows the spec §4.2 algorithm
(collect in sequence, discard absent and zero-count results, stable-sort
descending by signal count, truncate); the digital-asset screener shares
the analyzer and the discard policy but visits only the first `limit`
universe entries and returns survivors in visit order, truncated, without
sorting. -/
theorem screen_algorithms_amended :
    (∀ (lib : IndicatorLib) (fetch : String → Except String (Option Df))
        (rows : List Row) (limit : Nat), (∀ row ∈ rows, row.code ≠ "") →
        scan_korean_stocks lib fetch (Except.ok rows) limit =
          screen_spec (analyze_stock lib fetch)
            (rows.map fun row => (row.code, row.name)) limit)
    ∧ ∀ (lib : IndicatorLib) (fetch : String → Except String (Option Df))
        (limit : Nat),
        scan_cryptocurrencies lib fetch limit =
          screen_spec_nosort (analyze_stock lib fetch)
            (cryptoUniverse.take limit) limit := by
  constructor
  · intro lib fetch rows limit hcode
    unfold scan_korean_stocks screen_spec sortBySignalCount
    dsimp only
    rw [collectResults_eq, List.filterMap_map]
    congr 2
    apply List.filterMap_congr
    intro row hrow
    unfold collectF
    rw [if_neg (hcode row hrow)]
    rfl
  · intro lib fetch limit
    unfold scan_cryptocurrencies screen_spec_nosort
    rw [crypto_go, List.nil_append]
    dsimp only
    unfold cryptoUniverse
    rw [← List.map_take, List.filterMap_map]
    congr 1
    apply List.filterMap_congr
    intro s hs
    rw [cryptoF_eq_specF]
    rfl

/-- Witness for the amended C1 at concrete universes. -/
theorem screen_algorithms_amended_witness :
    scan_korean_stocks libId fetchCex (Except.ok rowsCex) 10 =
      screen_spec (analyze_stock libId fetchCex)
        [("ETHKRW", "ETH"), ("BTCKRW", "BTC")] 10
    ∧ scan_cryptocurrencies libId fetchCex 3 =
        screen_spec_nosort (analyze_stock libId fetchCex)
          (cryptoUniverse.take 3) 3 :=
  ⟨screen_algorithms_amended.1 libId fetchCex rowsCex 10
    (by intro row hrow
        simp [rowsCex] at hrow
        rcases hrow with rfl | rfl <;> simp),
   screen_algorithms_amended.2 libId fetchCex 3⟩

lemma analyze_cex_BTC :
    analyze_stock libId fetchCex "BTCKRW" "BTC" =
      some (mkRecord libId dfBTC "BTCKRW" "BTC") := by
  simp [analyze_stock, fetchCex, dfBTC_len]

lemma analyze_cex_ETH :
    analyze_stock libId fetchCex "ETHKRW" "ETH" =
      some (mkRecord libId dfETH "ETHKRW" "ETH") := by
  simp [analyze_stock, fetchCex, dfETH_len]

lemma count_cex_BTC : (mkRecord libId dfBTC "BTCKRW" "BTC").signal_count = 1 := by
  rw [mkRecord_signal_count, mkSignals_libId_dfBTC]
  rfl

lemma count_cex_ETH : (mkRecord libId dfETH "ETHKRW" "ETH").signal_count = 2 := by
  rw [mkRecord_signal_count, mkSignals_libId_dfETH]
  rfl

lemma cryptoF_cex_BTC :
    cryptoF libId fetchCex "BTC" =
      some (mkRecord libId dfBTC "BTCKRW" "BTC") := by
  rw [cryptoF_eq_specF, show ("BTC" ++ "KRW") = "BTCKRW" from rfl,
    analyze_cex_BTC]
  dsimp only
  rw [if_pos (by rw [count_cex_BTC]; omega)]

lemma cryptoF_cex_ETH :
    cryptoF libId fetchCex "ETH" =
      some (mkRecord libId dfETH "ETHKRW" "ETH") := by
  rw [cryptoF_eq_specF, show ("ETH" ++ "KRW") = "ETHKRW" from rfl,
    analyze_cex_ETH]
  dsimp only
  rw [if_pos (by rw [count_cex_ETH]; omega)]

lemma cryptoF_cex_none (s : String) (h1 : ¬s ++ "KRW" = "BTCKRW")
    (h2 : ¬s ++ "KRW" = "ETHKRW") : cryptoF libId fetchCex s = none := by
  rw [cryptoF_eq_specF,
    show analyze_stock libId fetchCex (s ++ "KRW") s = none from by
      simp [analyze_stock, fetchCex, h1, h2]]

lemma crypto_scan_cex_eval :
    scan_cryptocurrencies libId fetchCex 10 =
      [mkRecord libId dfBTC "BTCKRW" "BTC",
       mkRecord libId dfETH "ETHKRW" "ETH"] := by
  unfold scan_cryptocurrencies
  rw [crypto_go, List.nil_append]
  dsimp only
  rw [show cryptoSymbols.take 10 =
    ["BTC", "ETH", "BNB", "XRP", "ADA", "SOL", "DOGE", "AVAX",
     "LINK", "MATIC"] from rfl]
  simp [cryptoF_cex_BTC, cryptoF_cex_ETH, cryptoF_cex_none]

lemma spec_screen_cex_eval :
    screen_spec (analyze_stock libId fetchCex) cryptoUniverse 10 =
      [mkRecord libId dfETH "ETHKRW" "ETH",
       mkRecord libId dfBTC "BTCKRW" "BTC"] := by
  unfold screen_spec cryptoUniverse
  rw [List.filterMap_map]
  have hcongr : List.filterMap
      ((fun e =>
          match analyze_stock libId fetchCex e.1 e.2 with
          | none => none
          | some r => if 0 < r.signal_count then some r else none) ∘
        fun s => (s ++ "KRW", s)) cryptoSymbols =
      List.filterMap (cryptoF libId fetchCex) cryptoSymbols := by
    apply List.filterMap_congr
    intro s _
    exact (cryptoF_eq_specF libId fetchCex s).symm
  rw [hcongr]
  rw [show cryptoSymbols =
    ["BTC", "ETH", "BNB", "XRP", "ADA", "SOL", "DOGE", "AVAX",
     "LINK", "MATIC", "ATOM", "LTC", "DASH", "SHIB", "UNI", "ARB",
     "APT", "OP", "FET", "JTO"] from rfl]
  simp only [List.filterMap_cons, cryptoF_cex_BTC, cryptoF_cex_ETH,
    cryptoF_cex_none "BNB" (by simp) (by simp),
    cryptoF_cex_none "XRP" (by simp) (by simp),
    cryptoF_cex_none "ADA" (by simp) (by simp),
    cryptoF_cex_none "SOL" (by simp) (by simp),
    cryptoF_cex_none "DOGE" (by simp) (by simp),
    cryptoF_cex_none "AVAX" (by simp) (by simp),
    cryptoF_cex_none "LINK" (by simp) (by simp),
    cryptoF_cex_none "MATIC" (by simp) (by simp),
    cryptoF_cex_none "ATOM" (by simp) (by simp),
    cryptoF_cex_none "LTC" (by simp) (by simp),
    cryptoF_cex_none "DASH" (by simp) (by simp),
    cryptoF_cex_none "SHIB" (by simp) (by simp),
    cryptoF_cex_none "UNI" (by simp) (by simp),
    cryptoF_cex_none "ARB" (by simp) (by simp),
    cryptoF_cex_none "APT" (by simp) (by simp),
    cryptoF_cex_none "OP" (by simp) (by simp),
    cryptoF_cex_none "FET" (by simp) (by simp),
    cryptoF_cex_none "JTO" (by simp) (by simp),
    List.filterMap_nil]
  simp [List.mergeSort, List.merge, count_cex_BTC, count_cex_ETH]

/-- C1 counterexample: against the crypto universe with BTC yielding one
signal and ETH two, the digital-asset screener returns the records in
visit order [1, 2] while the spec §4.2 algorithm (sort by signal count
descending, then truncate) returns [2, 1]: the two disagree. -/
theorem crypto_scan_ne_spec_screen_cex :
    scan_cryptocurrencies libId fetchCex 10 ≠
      screen_spec (analyze_stock libId fetchCex) cryptoUniverse 10
    ∧ (scan_cryptocurrencies libId fetchCex 10).map
        SignalRecord.signal_count = [1, 2]
    ∧ (screen_spec (analyze_stock libId fetchCex) cryptoUniverse 10).map
        SignalRecord.signal_count = [2, 1] := by
  refine ⟨?_, ?_, ?_⟩
  · rw [crypto_scan_cex_eval, spec_screen_cex_eval]
    intro h
    have h2 := congrArg (List.map SignalRecord.signal_count) h
    simp [count_cex_BTC, count_cex_ETH] at h2
  · rw [crypto_scan_cex_eval]
    simp [count_cex_BTC, count_cex_ETH]
  · rw [spec_screen_cex_eval]
    simp [count_cex_BTC, count_cex_ETH]
